import Mathlib

/-!
Verification of the change-impact analysis and tiered quality-gate execution
engine of the ci-framework repository.

The definitions below are a shallow embedding of
`src/framework/actions/quality_gates.py` and
`src/framework/actions/change_detection.py`.  Pure Python functions become
Lean functions; the dict of per-command results becomes an association list
with Python-dict insertion semantics; Python sets become `Finset String`;
the process-spawning boundary (`_execute_command`) is modelled as an oracle
`run : String → CmdResult`, and the two places an exception can escape into
`execute_tier`'s try block (the command-execution call and
`_generate_reports`) are modelled by an `Except` input and a boolean flag.
-/

/-! ## String helpers (Python `str.split`, substring test, `fnmatch`) -/

/-- Splitting a character list on whitespace runs, accumulating the current
word; empty pieces are dropped, as Python's `str.split()` does. -/
def split_ws_aux : List Char → List Char → List String
  | [], cur => if cur.isEmpty then [] else [String.mk cur]
  | c :: rest, cur =>
    if c.isWhitespace then
      (if cur.isEmpty then [] else [String.mk cur]) ++ split_ws_aux rest []
    else split_ws_aux rest (cur ++ [c])

/-- Model of Python's whitespace `str.split()`: split on whitespace runs and
drop empty pieces. -/
def pySplit (s : String) : List String :=
  split_ws_aux s.data []

/-- Model of Python's `cmd.split()[-1]` (quality_gates.py line 456).  On a
string whose split is empty Python raises IndexError; that case is
unreachable for the command strings built by `_get_tier_commands`, and we
return `""` there. -/
def last_word (cmd : String) : String :=
  (pySplit cmd).getLastD ""

/-- Model of `cmd.split()[-1] if " " in cmd else cmd` (quality_gates.py
line 351). -/
def cmd_name (cmd : String) : String :=
  if cmd.data.contains ' ' then last_word cmd else cmd

/-- Character-list test: `pat` occurs at the head of the list. -/
def chars_lead : List Char → List Char → Bool
  | [], _ => true
  | _ :: _, [] => false
  | p :: ps, c :: cs => p == c && chars_lead ps cs

/-- Substring occurrence over character lists. -/
def has_sub (pat : List Char) : List Char → Bool
  | [] => chars_lead pat []
  | c :: rest => chars_lead pat (c :: rest) || has_sub pat rest

/-- Model of Python's `sub in s` substring test. -/
def str_has (s sub : String) : Bool :=
  has_sub sub.data s.data

/-- The zero-tolerance signature test `"F821" in stderr or "E9" in stderr`
used at quality_gates.py lines 357-359 and 490-492. -/
def critical_signature (stderr : String) : Bool :=
  str_has stderr "F821" || str_has stderr "E9"

/-! ## quality_gates.py: data model -/

/-- Result dictionary returned by `_execute_command` (quality_gates.py
lines 214-308).  The keys `timeout` and `error` are present only on some
return paths in Python; absent keys read via `.get` default to
false/none, which the field defaults model. -/
structure CmdResult where
  success : Bool
  stdout : String := ""
  stderr : String := ""
  returncode : Int := 0
  timeout : Bool := false
  error : Option String := none
deriving DecidableEq

/-- The fields of the `QualityResult` dataclass (quality_gates.py lines
19-38) that the executor logic reads or writes.  `config`,
`detected_patterns` and `dependencies` are configuration echoes that no
claim concerns; `partialSuccess` models the Python field
`partial_success`. -/
structure QualityResult where
  success : Bool := false
  tier : String := ""
  executed_checks : List String := []
  failed_checks : List String := []
  successful_checks : List String := []
  failure_reason : Option String := none
  error_details : Option String := none
  failed_fast : Bool := false
  timeout_seconds : Option Nat := none
  partialSuccess : Bool := false
  environment : Option String := none
  compatibility_check : Bool := false
deriving DecidableEq

/-- An exception escaping into `execute_tier`'s try block: either
`subprocess.TimeoutExpired` (caught at line 518) or any other exception
(caught at line 524). -/
inductive PyExn where
  | timeoutExpired (msg : String)
  | otherError (msg : String)
deriving DecidableEq

/-- Per-command results as Python builds them: a dict keyed by command
name, in insertion order. -/
abbrev Results := List (String × CmdResult)

/-- Python dict assignment `results[k] = v`: replace in place if the key
exists, else append. -/
def dict_insert (m : Results) (k : String) (v : CmdResult) : Results :=
  if m.any (fun p => p.1 == k) then
    m.map (fun p => if p.1 == k then (p.1, v) else p)
  else m ++ [(k, v)]

/-! ## quality_gates.py: command construction and execution -/

/-- `base_commands` dict of `_get_tier_commands` (quality_gates.py lines
196-202); an unknown tier falls back to essential via `.get`. -/
def base_commands (tier : String) : List String :=
  if tier == "essential" then ["test", "lint", "typecheck"]
  else if tier == "extended" then ["test", "lint", "typecheck", "security-scan"]
  else if tier == "full" then ["test", "lint", "typecheck", "security-scan", "check-all"]
  else ["test", "lint", "typecheck"]

/-- `_get_tier_commands` (quality_gates.py lines 194-212): map each check
name through the detected package manager's invocation style. -/
def get_tier_commands (tier managerName : String) : List String :=
  (base_commands tier).map (fun cmd =>
    if managerName == "pixi" then "pixi run " ++ cmd
    else if managerName == "poetry" then "poetry run " ++ cmd
    else if managerName == "hatch" then "hatch run " ++ cmd
    else "python -m " ++ cmd)

/-- Loop body of `_execute_commands_sequential` (quality_gates.py lines
350-362): run each command, store its result, and break on a critical
lint signature in a failed command's stderr when fail-fast is on. -/
def exec_seq_aux (run : String → CmdResult) (failFast : Bool) :
    List String → Results → Results
  | [], results => results
  | cmd :: rest, results =>
    let r := run cmd
    let results2 := dict_insert results (cmd_name cmd) r
    if !r.success && failFast then
      if critical_signature r.stderr then results2
      else exec_seq_aux run failFast rest results2
    else exec_seq_aux run failFast rest results2

/-- `_execute_commands_sequential` (quality_gates.py lines 340-363); the
`fail_fast` parameter defaults to True and both call sites use the
default. -/
def execute_commands_sequential (run : String → CmdResult) (commands : List String) : Results :=
  exec_seq_aux run true commands []

/-! ## quality_gates.py: result aggregation and execute_tier -/

/-- The mutable locals and result fields written by the aggregation loop of
`execute_tier` (quality_gates.py lines 475-501). -/
structure AggState where
  failed_checks : List String := []
  successful_checks : List String := []
  failed_details : List String := []
  failure_reason : Option String := none
  error_details : Option String := none
  failed_fast : Bool := false
deriving DecidableEq

/-- The aggregation loop of `execute_tier` (quality_gates.py lines
480-501): classify each command result; on a failed result carrying the
critical signature set `failure_reason = "critical_lint_violations"`,
`failed_fast = True` and break; otherwise on a failed result carrying the
timeout flag set `failure_reason = "timeout"` and break. -/
def analyze_results : Results → AggState → AggState
  | [], st => st
  | (name, r) :: rest, st =>
    if r.success then
      analyze_results rest { st with successful_checks := st.successful_checks ++ [name] }
    else
      let st2 := { st with
        failed_checks := st.failed_checks ++ [name]
        failed_details := st.failed_details ++ [name ++ ": " ++ r.stderr] }
      if critical_signature r.stderr then
        { st2 with
          failure_reason := some "critical_lint_violations"
          error_details := some r.stderr
          failed_fast := true }
      else if r.timeout then
        { st2 with
          failure_reason := some "timeout"
          error_details := some ("Command " ++ name ++ " timed out") }
      else analyze_results rest st2

/-- Python's `"; ".join` over the collected failure detail strings
(quality_gates.py line 505). -/
def join_sep (sep : String) : List String → String
  | [] => ""
  | [x] => x
  | x :: rest => x ++ sep ++ join_sep sep rest

/-- `execute_tier` (quality_gates.py lines 402-530).  `managerName` is the
name of the detected package manager; `timeout = none` models the Python
default, resolved to `config.timeouts.get("test", 120) = 120`.  `outcome`
models the command-execution call inside the try block: `Except.error`
is an exception propagating out of it, mapped by the handlers at lines
518-527.  `reportsRaise` models `_generate_reports` (line 516, reached
only for the full tier on success) raising an OSError, caught by the same
handler at line 524.  `executed_checks` is assigned the full tier command
list at line 456, before any command runs. -/
def execute_tier (tier managerName : String) (timeout : Option Nat) (dryRun : Bool)
    (outcome : Except PyExn Results) (reportsRaise : Bool) : QualityResult :=
  let base : QualityResult :=
    { tier := tier
      environment := some (managerName ++ "-" ++ tier)
      compatibility_check := true }
  if dryRun then { base with success := true }
  else
    let commands := get_tier_commands tier managerName
    let timeoutVal := timeout.getD 120
    let base2 := { base with
      executed_checks := commands.map last_word
      timeout_seconds := some timeoutVal }
    match outcome with
    | Except.error (PyExn.timeoutExpired _) =>
        { base2 with
          success := false
          failure_reason := some "timeout"
          error_details := some ("Overall execution timed out after "
            ++ toString timeoutVal ++ " seconds") }
    | Except.error (PyExn.otherError msg) =>
        { base2 with
          success := false
          failure_reason := some "execution_error"
          error_details := some msg }
    | Except.ok commandResults =>
        let agg := analyze_results commandResults {}
        let errDetails :=
          if !agg.failed_checks.isEmpty && agg.error_details.isNone then
            some (join_sep "; " agg.failed_details)
          else agg.error_details
        let res := { base2 with
          failed_checks := agg.failed_checks
          successful_checks := agg.successful_checks
          failure_reason := agg.failure_reason
          error_details := errDetails
          failed_fast := agg.failed_fast
          success := agg.failed_checks.isEmpty
          partialSuccess := !agg.successful_checks.isEmpty && !agg.failed_checks.isEmpty }
        if tier == "full" && res.success && reportsRaise then
          { res with
            success := false
            failure_reason := some "execution_error"
            error_details := some "report generation failed" }
        else res

/-- `execute_tier` invoked with `parallel=False`: the command results are
produced by `_execute_commands_sequential` (quality_gates.py lines
469-472). -/
def execute_tier_sequential (run : String → CmdResult) (tier managerName : String)
    (timeout : Option Nat) (reportsRaise : Bool) : QualityResult :=
  execute_tier tier managerName timeout false
    (Except.ok (execute_commands_sequential run (get_tier_commands tier managerName)))
    reportsRaise

/-! ## Concrete command oracles used by counterexamples and witnesses -/

/-- A successful command result. -/
def ok_result : CmdResult := { success := true }

/-- A failed lint result whose stderr carries the zero-tolerance
signature. -/
def lint_f821_result : CmdResult :=
  { success := false, stderr := "F821 undefined name", returncode := 1 }

/-- The result `_execute_command` returns on `subprocess.TimeoutExpired`
(quality_gates.py lines 293-300). -/
def timed_out_result : CmdResult :=
  { success := false
    stderr := "Command timed out after 120 seconds"
    returncode := -1
    timeout := true }

/-- Oracle for claim C1: the lint command fails with an F821 signature,
every other command succeeds. -/
def c1_run (cmd : String) : CmdResult :=
  if cmd == "pixi run lint" then lint_f821_result else ok_result

/-- Oracle for claim C5: the lint command fails with an F821 signature,
every other command succeeds. -/
def c5_run (cmd : String) : CmdResult :=
  if cmd == "pixi run lint" then lint_f821_result else ok_result

/-- Oracle for claim C6: the first (test) command times out, every other
command succeeds. -/
def c6_run (cmd : String) : CmdResult :=
  if cmd == "pixi run test" then timed_out_result else ok_result

/-- Oracle for claim C9: the test command succeeds and the lint command
fails with an F821 signature. -/
def c9_run (cmd : String) : CmdResult :=
  if cmd == "pixi run lint" then lint_f821_result else ok_result

/-- Second oracle for claim C5: the test command times out, then the lint
command fails with an F821 signature. -/
def c5b_run (cmd : String) : CmdResult :=
  if cmd == "pixi run test" then timed_out_result
  else if cmd == "pixi run lint" then lint_f821_result
  else ok_result

/-! ## change_detection.py: glob matching (`fnmatch`) and patterns -/

/-- All suffixes of a character list, longest first. -/
def suffixes : List Char → List (List Char)
  | [] => [[]]
  | c :: cs => (c :: cs) :: suffixes cs

/-- Model of Python's `fnmatch.fnmatch(name, pattern)` over character
lists: `*` matches any character sequence (slashes included, as in the
`.*` regex fnmatch translates to), `?` matches one character, any other
pattern character matches itself, and the whole string must be consumed.
On POSIX `fnmatch` case-normalization is the identity.  Character classes
`[...]` do not occur in any pattern this repository uses and are treated
as literal characters. -/
def fn_chars : List Char → List Char → Bool
  | [], s => s.isEmpty
  | p :: ps, s =>
    if p == '*' then (suffixes s).any (fun t => fn_chars ps t)
    else
      match s with
      | [] => false
      | c :: cs => (p == '?' || p == c) && fn_chars ps cs

/-- Model of `fnmatch.fnmatch` on strings. -/
def fnmatch (name pattern : String) : Bool :=
  fn_chars pattern.data name.data

/-- String begins with the given string, over character lists. -/
def starts_with_str (s t : String) : Bool :=
  chars_lead t.data s.data

/-- String ends with the given string, over character lists. -/
def ends_with_str (s t : String) : Bool :=
  chars_lead t.data.reverse s.data.reverse

/-- Python's `pattern[:-3]`: drop the last three characters. -/
def drop_right3 (s : String) : String :=
  String.mk (s.data.take (s.data.length - 3))

/-- `FilePatternMatcher._matches_pattern` (change_detection.py lines
106-120): direct glob match, root-anchored glob match, or
directory-wildcard suffix handling. -/
def matches_pattern (file pattern : String) : Bool :=
  fnmatch file pattern
  || fnmatch ("/" ++ file) ("/" ++ pattern)
  || (ends_with_str pattern "/**" && starts_with_str file (drop_right3 pattern))

/-- `FilePatternMatcher.DEFAULT_PATTERNS` (change_detection.py lines
57-69), in the dict's insertion order, which `classify_files` iterates. -/
def DEFAULT_PATTERNS : List (String × List String) :=
  [("docs", ["docs/**", "*.md", "*.rst", "*.txt", "README*", "CHANGELOG*", "LICENSE*"]),
   ("config", ["*.yml", "*.yaml", "*.toml", "*.json", ".github/**", "*.cfg", "*.ini",
               ".pre-commit-config.yaml", "tox.ini", "setup.cfg"]),
   ("tests", ["tests/**", "**/test_*.py", "**/*_test.py", "**/*_tests.py", "**/conftest.py",
              "test_*.py", "*_test.py"]),
   ("source", ["src/**", "**/*.py", "**/*.js", "**/*.ts", "framework/**", "lib/**"]),
   ("dependencies", ["requirements*.txt", "pyproject.toml", "package.json", "Pipfile*",
                     "poetry.lock", "package-lock.json", "yarn.lock", "Cargo.toml"]),
   ("ci", [".github/workflows/**", ".github/actions/**", "*.yml", "*.yaml", ".gitlab-ci.yml"]),
   ("build", ["Dockerfile*", "docker-compose*.yml", "Makefile", "setup.py", "setup.cfg",
              "CMakeLists.txt", "build.gradle", "pom.xml"])]

/-! ## change_detection.py: extension fallback and classification -/

/-- Characters after the last slash of a path (the final path component). -/
def last_component_aux : List Char → List Char → List Char
  | [], cur => cur
  | c :: rest, cur =>
    if c == '/' then last_component_aux rest []
    else last_component_aux rest (cur ++ [c])

/-- Index of the last `.` in a character list, if any. -/
def rfind_dot : List Char → Option Nat
  | [] => none
  | c :: rest =>
    match rfind_dot rest with
    | some i => some (i + 1)
    | none => if c == '.' then some 0 else none

/-- Model of `pathlib.Path(file).suffix`: the extension of the final path
component, computed as CPython does (`i = name.rfind('.')`; the suffix is
`name[i:]` when `0 < i < len(name) - 1`, else empty). -/
def path_suffix (file : String) : String :=
  let name := last_component_aux file.data []
  match rfind_dot name with
  | none => ""
  | some i => if 0 < i && i < name.length - 1 then String.mk (name.drop i) else ""

/-- Python's `str.lower()` over the ASCII extensions in play. -/
def str_lower (s : String) : String :=
  String.mk (s.data.map Char.toLower)

/-- The `extension_map` of `FilePatternMatcher._infer_from_extension`
(change_detection.py lines 126-147). -/
def extension_map : List (String × String) :=
  [(".py", "source"), (".js", "source"), (".ts", "source"), (".jsx", "source"),
   (".tsx", "source"), (".go", "source"), (".rs", "source"), (".java", "source"),
   (".cpp", "source"), (".c", "source"), (".h", "source"),
   (".md", "docs"), (".rst", "docs"), (".txt", "docs"),
   (".yml", "config"), (".yaml", "config"), (".toml", "config"), (".json", "config"),
   (".ini", "config"), (".cfg", "config")]

/-- `FilePatternMatcher._infer_from_extension` (change_detection.py lines
122-149). -/
def infer_from_extension (file : String) : Option String :=
  List.lookup (str_lower (path_suffix file)) extension_map

/-- The per-file part of the `classify_files` loop (change_detection.py
lines 82-99): first category, in pattern order, one of whose patterns
matches. -/
def classify_one : List (String × List String) → String → Option String
  | [], _ => none
  | (cat, pats) :: rest, file =>
    if pats.any (fun p => matches_pattern file p) then some cat
    else classify_one rest file

/-- Category assigned to a file: first-match-wins over the configured
category order, with the extension-map fallback when no pattern matches
(change_detection.py lines 82-99). -/
def classify_file (patterns : List (String × List String)) (file : String) : Option String :=
  match classify_one patterns file with
  | some cat => some cat
  | none => infer_from_extension file

/-- `classifications[category].append(file)` (change_detection.py line
87 / 98). -/
def append_to (cls : List (String × List String)) (cat file : String) :
    List (String × List String) :=
  cls.map (fun p => if p.1 == cat then (p.1, p.2 ++ [file]) else p)

/-- The file loop of `classify_files` (change_detection.py lines 82-102);
a file with no category and no extension match is only logged. -/
def classify_loop (patterns : List (String × List String)) :
    List String → List (String × List String) → List (String × List String)
  | [], cls => cls
  | f :: rest, cls =>
    match classify_file patterns f with
    | some cat => classify_loop patterns rest (append_to cls cat f)
    | none => classify_loop patterns rest cls

/-- `FilePatternMatcher.classify_files` (change_detection.py lines
77-104): start from one empty list per configured category and classify
each file in order. -/
def classify_files (patterns : List (String × List String)) (files : List String) :
    List (String × List String) :=
  classify_loop patterns files (patterns.map (fun p => (p.1, ([] : List String))))

/-- Python's `classifications.get(category, [])`: value at the first
matching key, or `[]`. -/
def py_get : List (String × List String) → String → List String
  | [], _ => []
  | (a, b) :: rest, k => if k == a then b else py_get rest k

/-! ## change_detection.py: OptimizationEngine -/

/-- The booleans computed by `OptimizationEngine._analyze_change_patterns`
(change_detection.py lines 586-614). -/
structure ChangeAnalysis where
  has_source : Bool
  has_tests : Bool
  has_docs : Bool
  has_config : Bool
  has_dependencies : Bool
  has_ci : Bool
  has_build : Bool
  docs_only : Bool
  config_only : Bool
  tests_only : Bool
  ci_only : Bool
deriving DecidableEq

/-- `OptimizationEngine._analyze_change_patterns` (change_detection.py
lines 586-614). -/
def analyze_change_patterns (cls : List (String × List String)) : ChangeAnalysis :=
  let has_source := !(py_get cls "source").isEmpty
  let has_tests := !(py_get cls "tests").isEmpty
  let has_docs := !(py_get cls "docs").isEmpty
  let has_config := !(py_get cls "config").isEmpty
  let has_dependencies := !(py_get cls "dependencies").isEmpty
  let has_ci := !(py_get cls "ci").isEmpty
  let has_build := !(py_get cls "build").isEmpty
  { has_source := has_source
    has_tests := has_tests
    has_docs := has_docs
    has_config := has_config
    has_dependencies := has_dependencies
    has_ci := has_ci
    has_build := has_build
    docs_only := has_docs && !(has_source || has_tests || has_dependencies || has_build)
    config_only := has_config && !(has_source || has_tests || has_dependencies || has_docs)
    tests_only := has_tests && !(has_source || has_dependencies)
    ci_only := has_ci && !(has_source || has_tests || has_dependencies || has_docs) }

/-- The four skip flags of
`OptimizationEngine._calculate_skip_recommendations` (change_detection.py
lines 616-652); the accompanying justification strings carry no logic and
are not modelled. -/
structure SkipRecommendations where
  tests : Bool
  security : Bool
  docs : Bool
  lint : Bool
deriving DecidableEq

/-- `OptimizationEngine._calculate_skip_recommendations`
(change_detection.py lines 616-652). -/
def calculate_skip_recommendations (testOpt jobSkip : Bool) (a : ChangeAnalysis) :
    SkipRecommendations :=
  { tests := !a.has_source && !a.has_tests && !a.has_dependencies && testOpt
    security := (a.docs_only || (a.has_config && !a.has_dependencies && !a.has_source)) && jobSkip
    docs := !a.has_docs && jobSkip
    lint := a.docs_only && jobSkip }

/-- Number contributed by a Python boolean inside `sum([...])`. -/
def bool_nat (b : Bool) : Nat := if b then 1 else 0

/-- `OptimizationEngine._calculate_optimization_score` (change_detection.py
lines 654-664).  Python computes `int((skipped_jobs / 4) * 100)` in
floating point; for `skipped_jobs` in 0..4 every intermediate value is
exactly representable, so the result equals `skipped_jobs * 100 / 4` in
integer arithmetic. -/
def calculate_optimization_score (s : SkipRecommendations) : Nat :=
  let skipped := bool_nat s.tests + bool_nat s.security + bool_nat s.docs + bool_nat s.lint
  skipped * 100 / 4

/-- `OptimizationEngine.job_time_estimates` (change_detection.py lines
548-554). -/
def job_time_estimates : List (String × Nat) :=
  [("tests", 120), ("security", 180), ("docs", 60), ("lint", 30), ("build", 90)]

/-- `OptimizationEngine._calculate_time_savings` (change_detection.py
lines 666-679). -/
def calculate_time_savings (s : SkipRecommendations) : Nat :=
  (if s.tests then (List.lookup "tests" job_time_estimates).getD 0 else 0)
  + (if s.security then (List.lookup "security" job_time_estimates).getD 0 else 0)
  + (if s.docs then (List.lookup "docs" job_time_estimates).getD 0 else 0)
  + (if s.lint then (List.lookup "lint" job_time_estimates).getD 0 else 0)

/-- The fields of the dict returned by
`OptimizationEngine.calculate_optimization` (change_detection.py lines
574-584) that carry logic; the `reasoning` strings are not modelled. -/
structure OptimizationResult where
  skip_tests : Bool
  skip_security : Bool
  skip_docs : Bool
  skip_lint : Bool
  optimization_score : Nat
  time_savings : Nat
  change_analysis : Option ChangeAnalysis
  affected_tests : List String
deriving DecidableEq

/-- `OptimizationEngine._empty_optimization_result` (change_detection.py
lines 681-693); the empty `change_analysis` dict is modelled as `none`. -/
def empty_optimization_result : OptimizationResult :=
  { skip_tests := false
    skip_security := false
    skip_docs := false
    skip_lint := false
    optimization_score := 0
    time_savings := 0
    change_analysis := none
    affected_tests := [] }

/-- `total_files = sum(len(files) for files in classifications.values())`
(change_detection.py line 559). -/
def total_files (cls : List (String × List String)) : Nat :=
  (cls.map (fun p => p.2.length)).sum

/-- `OptimizationEngine.calculate_optimization` (change_detection.py lines
556-584). -/
def calculate_optimization (testOpt jobSkip : Bool) (cls : List (String × List String))
    (affectedTests : List String) : OptimizationResult :=
  if total_files cls == 0 then empty_optimization_result
  else
    let analysis := analyze_change_patterns cls
    let skips := calculate_skip_recommendations testOpt jobSkip analysis
    { skip_tests := skips.tests
      skip_security := skips.security
      skip_docs := skips.docs
      skip_lint := skips.lint
      optimization_score := calculate_optimization_score skips
      time_savings := calculate_time_savings skips
      change_analysis := some analysis
      affected_tests := affectedTests }

/-! ## change_detection.py: DependencyAnalyzer

Python `set[str]` values are modelled as duplicate-free lists: membership
tests model `in`, and guarded appends model `set.add`.  Set iteration
order is unspecified in Python; every property proved below is
insensitive to the order determinized here. -/

/-- The `DependencyNode` dataclass (change_detection.py lines 44-51). -/
structure DependencyNode where
  module_path : String
  imports : List String
  imported_by : List String
  test_files : List String
  is_test : Bool
deriving DecidableEq

/-- The `dependency_graph` dict of `DependencyAnalyzer`: module path to
node, as an association list. -/
abbrev DepGraph := List (String × DependencyNode)

/-- Dict lookup `self.dependency_graph[path]` / the membership test
`path in self.dependency_graph`. -/
def lookupNode (g : DepGraph) (k : String) : Option DependencyNode :=
  List.lookup k g

/-- Concatenation of all `imported_by` sets in the graph: every path the
traversal of `get_affected_modules` can ever add beyond its seed. -/
def edge_targets : DepGraph → List String
  | [] => []
  | p :: rest => p.2.imported_by ++ edge_targets rest

/-- Total size of all `imported_by` sets: a bound on how many queue
entries one visit can add. -/
def total_edges : DepGraph → Nat
  | [] => 0
  | p :: rest => p.2.imported_by.length + total_edges rest

/-- The inner `for dependent in ... imported_by` loop of
`get_affected_modules` (change_detection.py lines 218-221): the
dependents not yet in the affected set, which the loop appends to both
the affected set and the queue. -/
def new_entries (affected : List String) : List String → List String
  | [] => []
  | d :: ds =>
    if affected.contains d then new_entries affected ds
    else d :: new_entries (affected ++ [d]) ds

/-- The while loop of `DependencyAnalyzer.get_affected_modules`
(change_detection.py lines 210-223), one fuel unit per iteration: pop the
queue head; skip it if visited, else mark it visited and, when it is a
graph node, add every not-yet-affected member of its `imported_by` set to
the affected set and the queue.  `affected_fuel` below is proved
sufficient for the queue to empty, so the fuel cutoff never fires on the
fuel `get_affected_modules` supplies. -/
def affected_loop (g : DepGraph) :
    Nat → List String → List String → List String → List String
  | _, [], affected, _ => affected
  | 0, _ :: _, affected, _ => affected
  | fuel + 1, current :: qs, affected, visited =>
    if visited.contains current then
      affected_loop g fuel qs affected visited
    else
      match lookupNode g current with
      | none => affected_loop g fuel qs affected (current :: visited)
      | some node =>
        affected_loop g fuel (qs ++ new_entries affected node.imported_by)
          (affected ++ new_entries affected node.imported_by) (current :: visited)

/-- The seed of the traversal (change_detection.py lines 199-207): every
changed file that is a graph node, without duplicates (`affected` is a
Python set). -/
def seed_affected (g : DepGraph) : List String → List String → List String
  | [], acc => acc
  | f :: rest, acc =>
    if (lookupNode g f).isSome && !acc.contains f then
      seed_affected g rest (acc ++ [f])
    else seed_affected g rest acc

/-- Fuel sufficient for `affected_loop` to empty its queue: every
iteration either consumes a queue entry of an already-visited path or
visits a new path (there are at most as many as distinct candidate
paths), adding at most `total_edges` queue entries. -/
def affected_fuel (g : DepGraph) (changed : List String) : Nat :=
  (seed_affected g changed [] ++ edge_targets g).dedup.length * (total_edges g + 1)
    + (seed_affected g changed []).length

/-- `DependencyAnalyzer.get_affected_modules` (change_detection.py lines
197-223); `queue = list(affected)` seeds the worklist with the seed
set. -/
def get_affected_modules (g : DepGraph) (changed : List String) : List String :=
  affected_loop g (affected_fuel g changed) (seed_affected g changed [])
    (seed_affected g changed []) []

/-- The three-node import cycle of claim C4: module A imports B, B imports
C and C imports A, so `imported_by` holds the reverse edges
`_build_reverse_dependencies` would produce. -/
def cycle_graph : DepGraph :=
  [("A", { module_path := "A", imports := ["B"], imported_by := ["C"],
           test_files := [], is_test := false }),
   ("B", { module_path := "B", imports := ["C"], imported_by := ["A"],
           test_files := [], is_test := false }),
   ("C", { module_path := "C", imports := ["A"], imported_by := ["B"],
           test_files := [], is_test := false })]

/-! ## Derived predicates used in theorem statements -/

/-- The condition on which `_execute_commands_sequential` stops early
(quality_gates.py lines 356-361): a failed result whose stderr carries
the zero-tolerance signature. -/
def seq_break_trigger (r : CmdResult) : Bool :=
  !r.success && critical_signature r.stderr

/-- A failed plain-lint result without any zero-tolerance signature. -/
def lint_plain_fail : CmdResult :=
  { success := false, stderr := "lint failed", returncode := 1 }

/-- Command results with one success and one non-critical failure. -/
def c2_results : Results :=
  [("test", ok_result), ("lint", lint_plain_fail)]

/-! ## Lemmas about sequential execution and aggregation -/

/-- Processing a prefix without break triggers followed by a triggering
command ignores everything after the trigger. -/
lemma exec_seq_aux_halts (run : String → CmdResult) (c : String) (post : List String) :
    ∀ (front : List String) (acc : Results),
      (∀ p ∈ front, seq_break_trigger (run p) = false) →
      seq_break_trigger (run c) = true →
      exec_seq_aux run true (front ++ c :: post) acc
        = exec_seq_aux run true (front ++ [c]) acc := by
  intro front
  induction front with
  | nil =>
    intro acc _ hc
    have hc2 := hc
    simp only [seq_break_trigger, Bool.and_eq_true] at hc2
    simp [exec_seq_aux, hc2.1, hc2.2]
  | cons f fs ih =>
    intro acc hfront hc
    have hf : seq_break_trigger (run f) = false := hfront f (List.mem_cons_self f fs)
    simp only [seq_break_trigger] at hf
    simp only [List.cons_append, exec_seq_aux]
    cases hs : (run f).success with
    | true => simp [hs, ih _ (fun p hp => hfront p (List.mem_cons_of_mem f hp)) hc]
    | false =>
      cases hcr : critical_signature (run f).stderr with
      | true => simp [hs, hcr] at hf
      | false => simp [hs, hcr, ih _ (fun p hp => hfront p (List.mem_cons_of_mem f hp)) hc]

/-- Keys of a Python-dict insert: unchanged for an existing key, extended
by the key otherwise. -/
lemma keys_dict_insert (m : Results) (k : String) (v : CmdResult) :
    (dict_insert m k v).map Prod.fst
      = if m.any (fun p => p.1 == k) then m.map Prod.fst else m.map Prod.fst ++ [k] := by
  unfold dict_insert
  split
  · simp only [List.map_map]
    congr 1
    funext p
    simp only [Function.comp]
    split <;> rfl
  · simp

/-- A key present in the accumulator stays present through
`exec_seq_aux`. -/
lemma exec_seq_aux_keys_mono (run : String → CmdResult) (ff : Bool) :
    ∀ (cmds : List String) (acc : Results) (k : String),
      k ∈ acc.map Prod.fst → k ∈ (exec_seq_aux run ff cmds acc).map Prod.fst := by
  intro cmds
  induction cmds with
  | nil => intro acc k hk; simpa [exec_seq_aux] using hk
  | cons c cs ih =>
    intro acc k hk
    have hk2 : k ∈ (dict_insert acc (cmd_name c) (run c)).map Prod.fst := by
      rw [keys_dict_insert]
      split
      · exact hk
      · exact List.mem_append_left _ hk
    simp only [exec_seq_aux]
    split
    · split
      · exact hk2
      · exact ih _ _ hk2
    · exact ih _ _ hk2

/-- With no break trigger anywhere, every command of a sequential run
leaves its name in the results dict. -/
lemma exec_seq_aux_all_run (run : String → CmdResult) :
    ∀ (cmds : List String) (acc : Results),
      (∀ c ∈ cmds, seq_break_trigger (run c) = false) →
      ∀ c ∈ cmds, cmd_name c ∈ (exec_seq_aux run true cmds acc).map Prod.fst := by
  intro cmds
  induction cmds with
  | nil => intro acc _ c hc; exact absurd hc (List.not_mem_nil c)
  | cons c0 cs ih =>
    intro acc hno c hc
    have h0 : seq_break_trigger (run c0) = false := hno c0 (List.mem_cons_self c0 cs)
    simp only [seq_break_trigger] at h0
    have hkey : cmd_name c0 ∈ (dict_insert acc (cmd_name c0) (run c0)).map Prod.fst := by
      rw [keys_dict_insert]
      split
      · next hany =>
        rcases List.any_eq_true.mp hany with ⟨p, hp, hpk⟩
        have : p.1 = cmd_name c0 := eq_of_beq hpk
        exact this ▸ List.mem_map_of_mem Prod.fst hp
      · exact List.mem_append_right _ (List.mem_singleton_self _)
    rcases List.mem_cons.mp hc with hceq | hcs
    · subst hceq
      simp only [exec_seq_aux]
      cases hs : (run c).success with
      | true => simpa [hs] using exec_seq_aux_keys_mono run true cs _ _ hkey
      | false =>
        cases hcr : critical_signature (run c).stderr with
        | true => simp [hs, hcr] at h0
        | false => simpa [hs, hcr] using exec_seq_aux_keys_mono run true cs _ _ hkey
    · have hno2 : ∀ d ∈ cs, seq_break_trigger (run d) = false :=
        fun d hd => hno d (List.mem_cons_of_mem c0 hd)
      simp only [exec_seq_aux]
      cases hs : (run c0).success with
      | true => simpa [hs] using ih _ hno2 c hcs
      | false =>
        cases hcr : critical_signature (run c0).stderr with
        | true => simp [hs, hcr] at h0
        | false => simpa [hs, hcr] using ih _ hno2 c hcs

/-- When the first break-triggering failure in the results is a critical
one, the aggregation loop records the plural reason string, sets
`failed_fast` and has recorded at least one failed check. -/
lemma analyze_results_first_critical :
    ∀ (rs1 : Results) (name : String) (r : CmdResult) (rs2 : Results) (st : AggState),
      (∀ p ∈ rs1, p.2.success = false →
        critical_signature p.2.stderr = false ∧ p.2.timeout = false) →
      r.success = false → critical_signature r.stderr = true →
      (analyze_results (rs1 ++ (name, r) :: rs2) st).failed_fast = true
    ∧ (analyze_results (rs1 ++ (name, r) :: rs2) st).failure_reason
        = some "critical_lint_violations"
    ∧ (analyze_results (rs1 ++ (name, r) :: rs2) st).failed_checks ≠ [] := by
  intro rs1
  induction rs1 with
  | nil =>
    intro name r rs2 st _ hs hc
    simp [analyze_results, hs, hc]
  | cons p ps ih =>
    intro name r rs2 st hok hs hc
    obtain ⟨n0, r0⟩ := p
    have hok0 := hok (n0, r0) (List.mem_cons_self _ _)
    have hoks : ∀ q ∈ ps, q.2.success = false →
        critical_signature q.2.stderr = false ∧ q.2.timeout = false :=
      fun q hq => hok q (List.mem_cons_of_mem _ hq)
    cases hs0 : r0.success with
    | true =>
      simpa [analyze_results, hs0] using ih name r rs2 _ hoks hs hc
    | false =>
      have hcr0 : critical_signature r0.stderr = false := (hok0 hs0).1
      have hto0 : r0.timeout = false := (hok0 hs0).2
      simpa [analyze_results, hs0, hcr0, hto0] using ih name r rs2 _ hoks hs hc

/-- When the first break-triggering failure in the results is a timeout,
the aggregation loop records the timeout reason and has recorded at least
one failed check. -/
lemma analyze_results_first_timeout :
    ∀ (rs1 : Results) (name : String) (r : CmdResult) (rs2 : Results) (st : AggState),
      (∀ p ∈ rs1, p.2.success = false →
        critical_signature p.2.stderr = false ∧ p.2.timeout = false) →
      r.success = false → critical_signature r.stderr = false → r.timeout = true →
      (analyze_results (rs1 ++ (name, r) :: rs2) st).failure_reason = some "timeout"
    ∧ (analyze_results (rs1 ++ (name, r) :: rs2) st).failed_checks ≠ [] := by
  intro rs1
  induction rs1 with
  | nil =>
    intro name r rs2 st _ hs hc ht
    simp [analyze_results, hs, hc, ht]
  | cons p ps ih =>
    intro name r rs2 st hok hs hc ht
    obtain ⟨n0, r0⟩ := p
    have hok0 := hok (n0, r0) (List.mem_cons_self _ _)
    have hoks : ∀ q ∈ ps, q.2.success = false →
        critical_signature q.2.stderr = false ∧ q.2.timeout = false :=
      fun q hq => hok q (List.mem_cons_of_mem _ hq)
    cases hs0 : r0.success with
    | true =>
      simpa [analyze_results, hs0] using ih name r rs2 _ hoks hs hc ht
    | false =>
      have hcr0 : critical_signature r0.stderr = false := (hok0 hs0).1
      have hto0 : r0.timeout = false := (hok0 hs0).2
      simpa [analyze_results, hs0, hcr0, hto0] using ih name r rs2 _ hoks hs hc ht

/-! ## Claim C2 -/

/-- Claim C2 (amended): for every `execute_tier` run, `partial_success`
implies `success = false`, and `success` implies `failed_checks` is
empty; the full equivalence `success ↔ failed_checks = []` holds on every
return path on which no internal exception is raised (the dry-run path
included), but not on the exception paths mapped to
`failure_reason = "execution_error"` or `"timeout"`, where `success` is
false while `failed_checks` remains empty. -/
theorem C2_success_iff_failed_empty :
    ∀ (tier managerName : String) (timeout : Option Nat) (dryRun : Bool)
      (outcome : Except PyExn Results) (rR : Bool),
      ((execute_tier tier managerName timeout dryRun outcome rR).partialSuccess = true →
          (execute_tier tier managerName timeout dryRun outcome rR).success = false)
    ∧ ((execute_tier tier managerName timeout dryRun outcome rR).success = true →
          (execute_tier tier managerName timeout dryRun outcome rR).failed_checks = [])
    ∧ (∀ rs, outcome = Except.ok rs → rR = false →
          ((execute_tier tier managerName timeout dryRun outcome rR).success = true ↔
            (execute_tier tier managerName timeout dryRun outcome rR).failed_checks = [])) := by
  intro tier managerName timeout dryRun outcome rR
  cases dryRun with
  | true => simp [execute_tier]
  | false =>
    cases outcome with
    | error e =>
      refine ⟨?_, ?_, ?_⟩
      · cases e <;> simp [execute_tier]
      · cases e <;> simp [execute_tier]
      · intro rs hrs
        exact absurd hrs (by simp)
    | ok rs =>
      simp only [execute_tier]
      generalize analyze_results rs {} = agg
      simp only [Bool.false_eq_true, if_false]
      cases hc : (tier == "full" && agg.failed_checks.isEmpty && rR) with
      | true =>
        refine ⟨?_, ?_, ?_⟩
        · simp [hc]
        · simp [hc]
        · intro rs2 hrs2 hrR
          subst hrR
          simp at hc
      | false =>
        refine ⟨?_, ?_, ?_⟩
        · simp [hc, List.isEmpty_iff]
        · simp [hc, List.isEmpty_iff]
        · intro rs2 _ _
          simp [hc, List.isEmpty_iff]

/-- Counterexample to claim C2 as stated: on the
`failure_reason = "execution_error"` exception path, `success` is false
while `failed_checks` is empty, so `success ↔ failed_checks = []`
fails. -/
theorem C2_counterexample :
    (execute_tier "essential" "pixi" none false
        (Except.error (PyExn.otherError "boom")) false).success = false
  ∧ (execute_tier "essential" "pixi" none false
        (Except.error (PyExn.otherError "boom")) false).failed_checks = []
  ∧ (execute_tier "essential" "pixi" none false
        (Except.error (PyExn.otherError "boom")) false).failure_reason
        = some "execution_error"
  ∧ ¬((execute_tier "essential" "pixi" none false
        (Except.error (PyExn.otherError "boom")) false).success = true ↔
      (execute_tier "essential" "pixi" none false
        (Except.error (PyExn.otherError "boom")) false).failed_checks = []) := by
  refine ⟨by decide, by decide, by decide, ?_⟩
  intro h
  exact absurd (h.mpr (by decide)) (by decide)

/-- Witness for C2 at a concrete non-exception run: a run with one success
and one plain failure has `partial_success = true` forcing
`success = false`, and the success equivalence holds. -/
theorem C2_witness :
    ((execute_tier "essential" "pixi" none false (Except.ok c2_results) false).success = false)
  ∧ ((execute_tier "essential" "pixi" none false (Except.ok c2_results) false).success = true ↔
      (execute_tier "essential" "pixi" none false (Except.ok c2_results) false).failed_checks = []) :=
  ⟨(C2_success_iff_failed_empty "essential" "pixi" none false (Except.ok c2_results) false).1
      (by decide),
   (C2_success_iff_failed_empty "essential" "pixi" none false (Except.ok c2_results) false).2.2
      c2_results rfl rfl⟩

/-! ## Claim C9 -/

/-- Claim C9 (amended): for every `execute_tier` run, `partial_success` is
true exactly when both the recorded successful and failed check lists are
non-empty — with no exemption for fail-fast or timeout aborts: the
aggregation loop truncates the lists at an abort but
`partial_success` is still computed from them, so it can be true together
with `failed_fast = true`. -/
theorem C9_partial_iff_both_nonempty :
    ∀ (tier managerName : String) (timeout : Option Nat) (dryRun : Bool)
      (outcome : Except PyExn Results) (rR : Bool),
      (execute_tier tier managerName timeout dryRun outcome rR).partialSuccess
        = (!(execute_tier tier managerName timeout dryRun outcome rR).successful_checks.isEmpty
            && !(execute_tier tier managerName timeout dryRun outcome rR).failed_checks.isEmpty) := by
  intro tier managerName timeout dryRun outcome rR
  cases dryRun with
  | true => simp [execute_tier]
  | false =>
    cases outcome with
    | error e => cases e <;> simp [execute_tier]
    | ok rs =>
      simp only [execute_tier]
      generalize analyze_results rs {} = agg
      simp only [Bool.false_eq_true, if_false]
      cases hc : (tier == "full" && agg.failed_checks.isEmpty && rR) with
      | true =>
        have hemp : agg.failed_checks.isEmpty = true := by
          simp only [Bool.and_eq_true] at hc
          exact hc.1.2
        simp [hc, hemp]
      | false => simp [hc]

/-- Counterexample to claim C9 as stated: a sequential essential-tier run
where the test check succeeds and the lint check fails with an F821
signature aborts fail-fast, yet `partial_success` is true. -/
theorem C9_counterexample :
    (execute_tier_sequential c9_run "essential" "pixi" none false).failed_fast = true
  ∧ (execute_tier_sequential c9_run "essential" "pixi" none false).partialSuccess = true
  ∧ (execute_tier_sequential c9_run "essential" "pixi" none false).successful_checks = ["test"]
  ∧ (execute_tier_sequential c9_run "essential" "pixi" none false).failed_checks = ["lint"] := by
  decide

/-! ## Claim C5 -/

/-- Claim C5 (amended): in every `execute_tier` run whose command results
contain a failed check carrying a zero-tolerance signature, with no
earlier failed check carrying a signature or a timeout flag, the result
has `failed_fast = true`, `success = false` and `failure_reason` equal to
the string `"critical_lint_violations"` — the plural string the code
actually assigns, not the spec's enum value `"critical_lint_violation"`.
(If an earlier failed check timed out, the aggregation loop stops there
with reason `"timeout"` instead.) -/
theorem C5_critical_signature_reason :
    ∀ (tier managerName : String) (timeout : Option Nat) (rR : Bool)
      (rs1 rs2 : Results) (name : String) (r : CmdResult),
      (∀ p ∈ rs1, p.2.success = false →
        critical_signature p.2.stderr = false ∧ p.2.timeout = false) →
      r.success = false → critical_signature r.stderr = true →
      (execute_tier tier managerName timeout false
          (Except.ok (rs1 ++ (name, r) :: rs2)) rR).failed_fast = true
    ∧ (execute_tier tier managerName timeout false
          (Except.ok (rs1 ++ (name, r) :: rs2)) rR).failure_reason
          = some "critical_lint_violations"
    ∧ (execute_tier tier managerName timeout false
          (Except.ok (rs1 ++ (name, r) :: rs2)) rR).success = false := by
  intro tier managerName timeout rR rs1 rs2 name r hok hs hc
  obtain ⟨hff, hfr, hne⟩ := analyze_results_first_critical rs1 name r rs2 {} hok hs hc
  simp only [execute_tier]
  generalize hg : analyze_results (rs1 ++ (name, r) :: rs2) {} = agg
  rw [hg] at hff hfr hne
  have hemp : agg.failed_checks.isEmpty = false := by
    cases hfc : agg.failed_checks with
    | nil => exact absurd hfc hne
    | cons a l => rfl
  simp [Bool.false_eq_true, if_false, hemp, hff, hfr]

/-- Counterexample to claim C5 as stated: the failure reason recorded for
a zero-tolerance violation is the plural `"critical_lint_violations"`,
not the enum value `"critical_lint_violation"` the claim names; and when
a timed-out check precedes the signature-carrying check in the results,
the aggregation loop stops at the timeout, leaving
`failure_reason = "timeout"` and `failed_fast = false` although a
signature is present. -/
theorem C5_counterexample :
    (execute_tier_sequential c5_run "essential" "pixi" none false).failure_reason
        = some "critical_lint_violations"
  ∧ (execute_tier_sequential c5_run "essential" "pixi" none false).failure_reason
        ≠ some "critical_lint_violation"
  ∧ (execute_tier_sequential c5_run "essential" "pixi" none false).failed_fast = true
  ∧ critical_signature (c5_run "pixi run lint").stderr = true
  ∧ (c5_run "pixi run lint").success = false
  ∧ ("lint", lint_f821_result)
      ∈ execute_commands_sequential c5b_run (get_tier_commands "essential" "pixi")
  ∧ (execute_tier_sequential c5b_run "essential" "pixi" none false).failure_reason
        = some "timeout"
  ∧ (execute_tier_sequential c5b_run "essential" "pixi" none false).failed_fast = false := by
  decide

/-- Witness for C5 at a concrete run: test succeeds, lint fails with an
F821 signature. -/
theorem C5_witness :
    (execute_tier "essential" "pixi" none false
        (Except.ok ([("test", ok_result)] ++ ("lint", lint_f821_result) :: [])) false).failed_fast
        = true
  ∧ (execute_tier "essential" "pixi" none false
        (Except.ok ([("test", ok_result)] ++ ("lint", lint_f821_result) :: [])) false).failure_reason
        = some "critical_lint_violations"
  ∧ (execute_tier "essential" "pixi" none false
        (Except.ok ([("test", ok_result)] ++ ("lint", lint_f821_result) :: [])) false).success
        = false :=
  C5_critical_signature_reason "essential" "pixi" none false
    [("test", ok_result)] [] "lint" lint_f821_result
    (by decide) (by decide) (by decide)

/-! ## Claim C6 -/

/-- Claim C6 (amended): a timed-out command in a sequential run yields
`failure_reason = "timeout"` and `success = false` (when no earlier
failed check carries a signature or timed out first), but it does NOT
halt sequential processing: the sequential loop breaks only on the
critical lint signature, which a timeout's stderr does not carry, so
every later command still runs; only the result-aggregation loop stops at
the timed-out check. -/
theorem C6_timeout_reason_no_halt :
    (∀ (run : String → CmdResult) (cmds : List String),
      (∀ c ∈ cmds, seq_break_trigger (run c) = false) →
      ∀ c ∈ cmds, cmd_name c ∈ (execute_commands_sequential run cmds).map Prod.fst)
  ∧ (∀ (tier managerName : String) (timeout : Option Nat) (rR : Bool)
      (rs1 rs2 : Results) (name : String) (r : CmdResult),
      (∀ p ∈ rs1, p.2.success = false →
        critical_signature p.2.stderr = false ∧ p.2.timeout = false) →
      r.success = false → critical_signature r.stderr = false → r.timeout = true →
      (execute_tier tier managerName timeout false
          (Except.ok (rs1 ++ (name, r) :: rs2)) rR).failure_reason = some "timeout"
    ∧ (execute_tier tier managerName timeout false
          (Except.ok (rs1 ++ (name, r) :: rs2)) rR).success = false) := by
  constructor
  · intro run cmds hno c hc
    exact exec_seq_aux_all_run run cmds [] (by
      intro d hd
      have := hno d hd
      simpa [seq_break_trigger] using this) c hc
  · intro tier managerName timeout rR rs1 rs2 name r hok hs hc ht
    obtain ⟨hfr, hne⟩ := analyze_results_first_timeout rs1 name r rs2 {} hok hs hc ht
    simp only [execute_tier]
    generalize hg : analyze_results (rs1 ++ (name, r) :: rs2) {} = agg
    rw [hg] at hfr hne
    have hemp : agg.failed_checks.isEmpty = false := by
      cases hfc : agg.failed_checks with
      | nil => exact absurd hfc hne
      | cons a l => rfl
    simp [Bool.false_eq_true, if_false, hemp, hfr]

/-- Counterexample to claim C6 as stated: in a sequential essential-tier
run whose first (test) command times out, the lint and typecheck commands
are still executed — their names appear in the results dict — even
though the result still reports `failure_reason = "timeout"` and
`success = false`. -/
theorem C6_counterexample :
    (execute_commands_sequential c6_run (get_tier_commands "essential" "pixi")).map Prod.fst
        = ["test", "lint", "typecheck"]
  ∧ (c6_run "pixi run test").timeout = true
  ∧ (execute_tier_sequential c6_run "essential" "pixi" none false).failure_reason
        = some "timeout"
  ∧ (execute_tier_sequential c6_run "essential" "pixi" none false).success = false := by
  decide

/-- Witness for C6 at concrete inputs: an all-clean run of the essential
commands executes every command, and a timed-out first check yields the
timeout reason. -/
theorem C6_witness :
    cmd_name "pixi run lint"
        ∈ (execute_commands_sequential c6_run (get_tier_commands "essential" "pixi")).map Prod.fst
  ∧ (execute_tier "essential" "pixi" none false
        (Except.ok ([] ++ ("test", timed_out_result) :: [("lint", ok_result)])) false).failure_reason
        = some "timeout" :=
  ⟨(C6_timeout_reason_no_halt.1 c6_run (get_tier_commands "essential" "pixi")
      (by decide) "pixi run lint" (by decide)),
   (C6_timeout_reason_no_halt.2 "essential" "pixi" none false
      [] [("lint", ok_result)] "test" timed_out_result
      (by decide) (by decide) (by decide) (by decide)).1⟩

/-! ## Claim C1 -/

/-- The executed-check list `execute_tier` reports is always the full tier
command list, assigned before any command runs (quality_gates.py line
456). -/
lemma execute_tier_executed_checks (tier managerName : String) (timeout : Option Nat)
    (outcome : Except PyExn Results) (rR : Bool) :
    (execute_tier tier managerName timeout false outcome rR).executed_checks
      = (get_tier_commands tier managerName).map last_word := by
  cases outcome with
  | error e => cases e <;> simp [execute_tier]
  | ok rs =>
    simp only [execute_tier]
    generalize analyze_results rs {} = agg
    simp only [Bool.false_eq_true, if_false]
    cases hc : (tier == "full" && agg.failed_checks.isEmpty && rR) with
    | true => simp [hc]
    | false => simp [hc]

/-- Claim C1 (amended): in a sequential run, a failed check whose output
carries a zero-tolerance signature does halt execution — the results are
those of the commands up to and including the triggering one, regardless
of what follows it in the tier's list — but the checks that were not run
are NOT absent from `executed_checks`: `execute_tier` assigns
`executed_checks` the full tier command list before executing anything
and never truncates it. -/
theorem C1_sequential_halt_executed_checks :
    (∀ (run : String → CmdResult) (front : List String) (c : String) (post : List String),
      (∀ p ∈ front, seq_break_trigger (run p) = false) →
      seq_break_trigger (run c) = true →
      execute_commands_sequential run (front ++ c :: post)
        = execute_commands_sequential run (front ++ [c]))
  ∧ (∀ (run : String → CmdResult) (tier managerName : String) (timeout : Option Nat) (rR : Bool),
      (execute_tier_sequential run tier managerName timeout rR).executed_checks
        = (get_tier_commands tier managerName).map last_word) := by
  constructor
  · intro run front c post hfront hc
    exact exec_seq_aux_halts run c post front [] hfront hc
  · intro run tier managerName timeout rR
    exact execute_tier_executed_checks tier managerName timeout _ rR

/-- Counterexample to claim C1 as stated: with the essential tier run
sequentially and the lint command failing with an F821 signature, the
typecheck command never runs (it is absent from the results dict), yet
`executed_checks` still lists it. -/
theorem C1_counterexample :
    (execute_commands_sequential c1_run (get_tier_commands "essential" "pixi")).map Prod.fst
        = ["test", "lint"]
  ∧ (execute_tier_sequential c1_run "essential" "pixi" none false).executed_checks
        = ["test", "lint", "typecheck"]
  ∧ seq_break_trigger (c1_run "pixi run lint") = true
  ∧ (execute_tier_sequential c1_run "essential" "pixi" none false).failed_fast = true := by
  decide

/-- Witness for C1 at concrete inputs: the essential pixi command list
with a triggering lint failure halts before typecheck, and
`executed_checks` is the full mapped tier list. -/
theorem C1_witness :
    execute_commands_sequential c1_run
        (["pixi run test"] ++ "pixi run lint" :: ["pixi run typecheck"])
      = execute_commands_sequential c1_run (["pixi run test"] ++ ["pixi run lint"])
  ∧ (execute_tier_sequential c1_run "essential" "pixi" none false).executed_checks
      = (get_tier_commands "essential" "pixi").map last_word :=
  ⟨C1_sequential_halt_executed_checks.1 c1_run ["pixi run test"] "pixi run lint"
      ["pixi run typecheck"] (by decide) (by decide),
   C1_sequential_halt_executed_checks.2 c1_run "essential" "pixi" none false⟩

/-! ## Claim C7 -/

/-- Claim C7: for every non-empty classification, the optimization score
equals 25 times the number of true skip flags (hence lies in [0, 100]),
and the time savings is the sum of the fixed per-stage estimates
tests=120, security=180, docs=60, lint=30 over the true flags. -/
theorem C7_score_and_time_savings :
    ∀ (testOpt jobSkip : Bool) (cls : List (String × List String)) (affectedTests : List String),
      total_files cls ≠ 0 →
      (calculate_optimization testOpt jobSkip cls affectedTests).optimization_score
        = 25 * (bool_nat (calculate_optimization testOpt jobSkip cls affectedTests).skip_tests
            + bool_nat (calculate_optimization testOpt jobSkip cls affectedTests).skip_security
            + bool_nat (calculate_optimization testOpt jobSkip cls affectedTests).skip_docs
            + bool_nat (calculate_optimization testOpt jobSkip cls affectedTests).skip_lint)
    ∧ (calculate_optimization testOpt jobSkip cls affectedTests).optimization_score ≤ 100
    ∧ (calculate_optimization testOpt jobSkip cls affectedTests).time_savings
        = (if (calculate_optimization testOpt jobSkip cls affectedTests).skip_tests then 120 else 0)
          + (if (calculate_optimization testOpt jobSkip cls affectedTests).skip_security then 180 else 0)
          + (if (calculate_optimization testOpt jobSkip cls affectedTests).skip_docs then 60 else 0)
          + (if (calculate_optimization testOpt jobSkip cls affectedTests).skip_lint then 30 else 0) := by
  intro testOpt jobSkip cls affectedTests htot
  have hne : (total_files cls == 0) = false := by
    cases h : total_files cls == 0 with
    | true => exact absurd (eq_of_beq h) htot
    | false => rfl
  simp only [calculate_optimization, hne, Bool.false_eq_true, if_false]
  generalize calculate_skip_recommendations testOpt jobSkip (analyze_change_patterns cls) = s
  obtain ⟨t, sec, d, l⟩ := s
  cases t <;> cases sec <;> cases d <;> cases l <;> refine ⟨by decide, by decide, by decide⟩

/-- Witness for C7 at the single-file docs classification. -/
theorem C7_witness :
    (calculate_optimization true true (classify_files DEFAULT_PATTERNS ["README.md"]) []).optimization_score
      = 25 * (bool_nat (calculate_optimization true true (classify_files DEFAULT_PATTERNS ["README.md"]) []).skip_tests
          + bool_nat (calculate_optimization true true (classify_files DEFAULT_PATTERNS ["README.md"]) []).skip_security
          + bool_nat (calculate_optimization true true (classify_files DEFAULT_PATTERNS ["README.md"]) []).skip_docs
          + bool_nat (calculate_optimization true true (classify_files DEFAULT_PATTERNS ["README.md"]) []).skip_lint) :=
  (C7_score_and_time_savings true true (classify_files DEFAULT_PATTERNS ["README.md"]) []
    (by decide)).1

/-! ## Claim C8 -/

/-- Claim C8: classifying `["README.md"]` under the default patterns puts
the file in docs with every other category empty; `docs_only` holds; and
with both optimization toggles enabled the optimization result skips
tests, lint and security but not docs, scoring 75. -/
theorem C8_readme_docs_only :
    py_get (classify_files DEFAULT_PATTERNS ["README.md"]) "docs" = ["README.md"]
  ∧ py_get (classify_files DEFAULT_PATTERNS ["README.md"]) "config" = []
  ∧ py_get (classify_files DEFAULT_PATTERNS ["README.md"]) "tests" = []
  ∧ py_get (classify_files DEFAULT_PATTERNS ["README.md"]) "source" = []
  ∧ py_get (classify_files DEFAULT_PATTERNS ["README.md"]) "dependencies" = []
  ∧ py_get (classify_files DEFAULT_PATTERNS ["README.md"]) "ci" = []
  ∧ py_get (classify_files DEFAULT_PATTERNS ["README.md"]) "build" = []
  ∧ (analyze_change_patterns (classify_files DEFAULT_PATTERNS ["README.md"])).docs_only = true
  ∧ (calculate_optimization true true (classify_files DEFAULT_PATTERNS ["README.md"]) []).skip_tests = true
  ∧ (calculate_optimization true true (classify_files DEFAULT_PATTERNS ["README.md"]) []).skip_lint = true
  ∧ (calculate_optimization true true (classify_files DEFAULT_PATTERNS ["README.md"]) []).skip_security = true
  ∧ (calculate_optimization true true (classify_files DEFAULT_PATTERNS ["README.md"]) []).skip_docs = false
  ∧ (calculate_optimization true true (classify_files DEFAULT_PATTERNS ["README.md"]) []).optimization_score = 75 := by
  decide

/-! ## Claim C10 -/

/-- Values of the extension fallback map are only source, docs or config —
never dependencies. -/
lemma lookup_value_mem {α β : Type} [BEq α] :
    ∀ (l : List (α × β)) (k : α) (v : β),
      List.lookup k l = some v → ∃ p ∈ l, p.2 = v := by
  intro l
  induction l with
  | nil => intro k v h; simp [List.lookup] at h
  | cons p ps ih =>
    intro k v h
    obtain ⟨a, b⟩ := p
    simp only [List.lookup] at h
    split at h
    · exact ⟨(a, b), List.mem_cons_self _ _, by injection h⟩
    · obtain ⟨q, hq, hv⟩ := ih k v h
      exact ⟨q, List.mem_cons_of_mem _ hq, hv⟩

/-- The extension fallback can never classify a file as dependencies. -/
lemma infer_not_dependencies (f : String) :
    infer_from_extension f ≠ some "dependencies" := by
  intro h
  obtain ⟨p, hp, hv⟩ := lookup_value_mem extension_map _ _ h
  have hvals : ∀ q ∈ extension_map, q.2 ≠ "dependencies" := by decide
  exact hvals p hp hv

/-- Membership in a category after a single dict append. -/
lemma py_get_append_to :
    ∀ (cls : List (String × List String)) (cat x k f : String),
      f ∈ py_get (append_to cls cat x) k → f ∈ py_get cls k ∨ (f = x ∧ k = cat) := by
  intro cls
  induction cls with
  | nil => intro cat x k f h; simp [append_to, py_get] at h
  | cons p ps ih =>
    intro cat x k f h
    obtain ⟨a, b⟩ := p
    simp only [append_to, List.map_cons] at h
    cases hac : a == cat with
    | true =>
      rw [hac] at h
      simp only [if_true, py_get] at h
      by_cases hka : (k == a) = true
      · rw [if_pos hka] at h
        rcases List.mem_append.mp h with h1 | h1
        · exact Or.inl (by simp [py_get, hka, h1])
        · have hfx : f = x := by simpa using h1
          exact Or.inr ⟨hfx, (eq_of_beq hka).trans (eq_of_beq hac)⟩
      · rw [if_neg hka] at h
        rcases ih cat x k f h with h1 | h1
        · exact Or.inl (by simp [py_get, hka, h1])
        · exact Or.inr h1
    | false =>
      rw [hac] at h
      simp only [Bool.false_eq_true, if_false, py_get] at h
      by_cases hka : (k == a) = true
      · rw [if_pos hka] at h
        exact Or.inl (by simp [py_get, hka, h])
      · rw [if_neg hka] at h
        rcases ih cat x k f h with h1 | h1
        · exact Or.inl (by simp [py_get, hka, h1])
        · exact Or.inr h1

/-- Membership in a category after the classification loop comes from the
accumulator or from the file's own classification. -/
lemma py_get_classify_loop (pats : List (String × List String)) :
    ∀ (files : List String) (acc : List (String × List String)) (k f : String),
      f ∈ py_get (classify_loop pats files acc) k →
      f ∈ py_get acc k ∨ classify_file pats f = some k := by
  intro files
  induction files with
  | nil => intro acc k f h; exact Or.inl (by simpa [classify_loop] using h)
  | cons x xs ih =>
    intro acc k f h
    simp only [classify_loop] at h
    cases hcf : classify_file pats x with
    | none => rw [hcf] at h; exact ih acc k f h
    | some cat =>
      rw [hcf] at h
      rcases ih _ k f h with h1 | h1
      · rcases py_get_append_to acc cat x k f h1 with h2 | ⟨hfx, hkc⟩
        · exact Or.inl h2
        · subst hfx; subst hkc; exact Or.inr hcf
      · exact Or.inr h1

/-- Every category of the initial classification dict is empty. -/
lemma py_get_init_empty :
    ∀ (pats : List (String × List String)) (k : String),
      py_get (pats.map (fun p => (p.1, ([] : List String)))) k = [] := by
  intro pats
  induction pats with
  | nil => intro k; rfl
  | cons p ps ih =>
    intro k
    simp only [List.map_cons, py_get]
    split
    · rfl
    · exact ih k

/-- A file in a category of `classify_files` was classified to that
category. -/
lemma classify_files_mem (pats : List (String × List String)) (files : List String)
    (k f : String) :
    f ∈ py_get (classify_files pats files) k → classify_file pats f = some k := by
  intro h
  rcases py_get_classify_loop pats files _ k f h with h1 | h1
  · rw [py_get_init_empty] at h1
    exact absurd h1 (List.not_mem_nil f)
  · exact h1

/-- First-match-wins: a classification that skipped the head category saw
none of its patterns match. -/
lemma classify_one_not_head (c : String) (ps : List String)
    (rest : List (String × List String)) (f cat : String) :
    classify_one ((c, ps) :: rest) f = some cat → cat ≠ c →
    (∀ p ∈ ps, matches_pattern f p = false) ∧ classify_one rest f = some cat := by
  intro h hne
  cases hany : ps.any (fun p => matches_pattern f p) with
  | true =>
    simp only [classify_one, hany, if_true] at h
    injection h with h2
    exact absurd h2.symm hne
  | false =>
    simp only [classify_one, hany, Bool.false_eq_true, if_false] at h
    refine ⟨?_, h⟩
    intro p hp
    have := List.any_eq_false.mp hany p hp
    simpa using this

/-- Claim C10: classification is first-match-wins over the fixed category
order, so a file in the dependencies category matches no docs, config,
tests or source pattern; concretely, `pyproject.toml` lands in config via
`*.toml` and `requirements.txt` in docs via `*.txt` even though both
match dependencies patterns, so `has_dependencies` is false and
`skip_tests` is true for either single-file change set. -/
theorem C10_dependencies_shadowed :
    (∀ (files : List String) (f : String),
      f ∈ py_get (classify_files DEFAULT_PATTERNS files) "dependencies" →
      ∀ cat ∈ ["docs", "config", "tests", "source"],
        ∀ p ∈ py_get DEFAULT_PATTERNS cat, matches_pattern f p = false)
  ∧ matches_pattern "pyproject.toml" "pyproject.toml" = true
  ∧ py_get (classify_files DEFAULT_PATTERNS ["pyproject.toml"]) "config" = ["pyproject.toml"]
  ∧ py_get (classify_files DEFAULT_PATTERNS ["pyproject.toml"]) "dependencies" = []
  ∧ (analyze_change_patterns (classify_files DEFAULT_PATTERNS ["pyproject.toml"])).has_dependencies = false
  ∧ (calculate_optimization true true (classify_files DEFAULT_PATTERNS ["pyproject.toml"]) []).skip_tests = true
  ∧ matches_pattern "requirements.txt" "requirements*.txt" = true
  ∧ py_get (classify_files DEFAULT_PATTERNS ["requirements.txt"]) "docs" = ["requirements.txt"]
  ∧ py_get (classify_files DEFAULT_PATTERNS ["requirements.txt"]) "dependencies" = []
  ∧ (analyze_change_patterns (classify_files DEFAULT_PATTERNS ["requirements.txt"])).has_dependencies = false
  ∧ (calculate_optimization true true (classify_files DEFAULT_PATTERNS ["requirements.txt"]) []).skip_tests = true := by
  refine ⟨?_, by decide, by decide, by decide, by decide, by decide,
    by decide, by decide, by decide, by decide, by decide⟩
  intro files f hf cat hcat p hp
  have hdep := classify_files_mem DEFAULT_PATTERNS files "dependencies" f hf
  have h1 : classify_one DEFAULT_PATTERNS f = some "dependencies" := by
    unfold classify_file at hdep
    cases hco : classify_one DEFAULT_PATTERNS f with
    | none => rw [hco] at hdep; exact absurd hdep (infer_not_dependencies f)
    | some c0 => rw [hco] at hdep; exact hdep
  simp only [DEFAULT_PATTERNS] at h1
  obtain ⟨hdocs, h2⟩ := classify_one_not_head _ _ _ _ _ h1 (by decide)
  obtain ⟨hconfig, h3⟩ := classify_one_not_head _ _ _ _ _ h2 (by decide)
  obtain ⟨htests, h4⟩ := classify_one_not_head _ _ _ _ _ h3 (by decide)
  obtain ⟨hsource, _⟩ := classify_one_not_head _ _ _ _ _ h4 (by decide)
  simp only [List.mem_cons, List.not_mem_nil, or_false] at hcat
  rcases hcat with rfl | rfl | rfl | rfl
  · exact hdocs p (by simpa [DEFAULT_PATTERNS, py_get] using hp)
  · exact hconfig p (by simpa [DEFAULT_PATTERNS, py_get] using hp)
  · exact htests p (by simpa [DEFAULT_PATTERNS, py_get] using hp)
  · exact hsource p (by simpa [DEFAULT_PATTERNS, py_get] using hp)

/-- Witness for C10's first-match property at a concrete input:
`poetry.lock` does land in dependencies, so it matches no config
pattern — in particular not `*.toml`. -/
theorem C10_witness :
    matches_pattern "poetry.lock" "*.toml" = false :=
  C10_dependencies_shadowed.1 ["poetry.lock"] "poetry.lock" (by decide)
    "config" (by decide) "*.toml" (by decide)

/-! ## Lemmas about the affected-modules traversal -/

/-- New entries never outnumber the dependents iterated over. -/
lemma new_entries_length_le :
    ∀ (ds affected : List String), (new_entries affected ds).length ≤ ds.length := by
  intro ds
  induction ds with
  | nil => intro affected; simp [new_entries]
  | cons d rest ih =>
    intro affected
    simp only [new_entries]
    split
    · exact le_trans (ih affected) (Nat.le_succ _)
    · simpa using ih (affected ++ [d])

/-- New entries come from the dependents iterated over. -/
lemma new_entries_sub :
    ∀ (ds affected : List String) (x : String),
      x ∈ new_entries affected ds → x ∈ ds := by
  intro ds
  induction ds with
  | nil => intro affected x hx; simp [new_entries] at hx
  | cons d rest ih =>
    intro affected x hx
    simp only [new_entries] at hx
    split at hx
    · exact List.mem_cons_of_mem d (ih affected x hx)
    · rcases List.mem_cons.mp hx with rfl | hx2
      · exact List.mem_cons_self _ _
      · exact List.mem_cons_of_mem d (ih (affected ++ [d]) x hx2)

/-- Every dependent ends up either already affected or among the new
entries, exactly as the Python membership-guarded `set.add` loop
behaves. -/
lemma new_entries_cover :
    ∀ (ds affected : List String) (x : String),
      x ∈ ds → x ∈ affected ∨ x ∈ new_entries affected ds := by
  intro ds
  induction ds with
  | nil => intro affected x hx; exact absurd hx (List.not_mem_nil x)
  | cons d rest ih =>
    intro affected x hx
    rcases List.mem_cons.mp hx with rfl | hx2
    · simp only [new_entries]
      cases hc : affected.contains x with
      | true => exact Or.inl (List.elem_iff.mp hc)
      | false => simp [hc]
    · simp only [new_entries]
      cases hc : affected.contains d with
      | true =>
        rcases ih affected x hx2 with h1 | h1
        · exact Or.inl h1
        · simp [hc, h1]
      | false =>
        rcases ih (affected ++ [d]) x hx2 with h1 | h1
        · rcases List.mem_append.mp h1 with h2 | h2
          · exact Or.inl h2
          · have : x = d := by simpa using h2
            subst this
            simp [hc]
        · simp [hc, List.mem_cons_of_mem, h1]

/-- A duplicate-free list of members of `U` is no longer than the count of
distinct elements of `U`. -/
lemma nodup_length_le_dedup (visited U : List String) (hd : visited.Nodup)
    (hsub : ∀ x ∈ visited, x ∈ U) : visited.length ≤ U.dedup.length := by
  have h1 : visited.toFinset.card = visited.length := List.toFinset_card_of_nodup hd
  have h2 : U.toFinset.card = U.dedup.length := List.card_toFinset U
  have h3 : visited.toFinset ⊆ U.toFinset := by
    intro x hx
    rw [List.mem_toFinset] at hx ⊢
    exact hsub x hx
  calc visited.length = visited.toFinset.card := h1.symm
    _ ≤ U.toFinset.card := Finset.card_le_card h3
    _ = U.dedup.length := h2

/-- A node found in the graph contributes its `imported_by` members to
`edge_targets` and its size to `total_edges`. -/
lemma lookup_imported_by_sub :
    ∀ (g : DepGraph) (k : String) (node : DependencyNode),
      lookupNode g k = some node →
      (∀ d ∈ node.imported_by, d ∈ edge_targets g)
      ∧ node.imported_by.length ≤ total_edges g := by
  intro g
  induction g with
  | nil => intro k node h; simp [lookupNode, List.lookup] at h
  | cons p ps ih =>
    intro k node h
    obtain ⟨a, b⟩ := p
    simp only [lookupNode, List.lookup] at h
    split at h
    · injection h with h2
      subst h2
      refine ⟨fun d hd => List.mem_append_left _ hd, ?_⟩
      simp only [total_edges]
      omega
    · obtain ⟨h1, h2⟩ := ih k node h
      refine ⟨fun d hd => List.mem_append_right _ (h1 d hd), ?_⟩
      simp only [total_edges]
      omega

/-- The seed accumulator only grows. -/
lemma seed_affected_acc_sub (g : DepGraph) :
    ∀ (changed acc : List String) (x : String),
      x ∈ acc → x ∈ seed_affected g changed acc := by
  intro changed
  induction changed with
  | nil => intro acc x hx; simpa [seed_affected] using hx
  | cons c cs ih =>
    intro acc x hx
    simp only [seed_affected]
    split
    · exact ih _ x (List.mem_append_left _ hx)
    · exact ih _ x hx

/-- Every changed file that is a graph node reaches the seed set. -/
lemma mem_seed_affected (g : DepGraph) :
    ∀ (changed acc : List String) (f : String),
      f ∈ changed → (lookupNode g f).isSome = true →
      f ∈ seed_affected g changed acc := by
  intro changed
  induction changed with
  | nil => intro acc f hf _; exact absurd hf (List.not_mem_nil f)
  | cons c cs ih =>
    intro acc f hf hs
    rcases List.mem_cons.mp hf with rfl | hfs
    · simp only [seed_affected]
      split
      · exact seed_affected_acc_sub g cs _ f
          (List.mem_append_right _ (List.mem_singleton_self f))
      · next h =>
        have hc : acc.contains f = true := by
          cases hc2 : acc.contains f with
          | true => rfl
          | false => rw [hs, hc2] at h; simp at h
        exact seed_affected_acc_sub g cs acc f (List.elem_iff.mp hc)
    · simp only [seed_affected]
      split
      · exact ih _ f hfs hs
      · exact ih _ f hfs hs

/-- The loop with an empty queue returns the affected set unchanged, for
any fuel. -/
lemma affected_loop_nil (g : DepGraph) (fuel : Nat) (affected visited : List String) :
    affected_loop g fuel [] affected visited = affected := by
  cases fuel <;> simp [affected_loop]

/-- Main invariant of the `get_affected_modules` while loop: with enough
fuel (each iteration either consumes a visited queue entry or visits a
new path, and visits are bounded by the distinct candidate paths), the
loop preserves the affected set, leaves it closed under `imported_by`,
and its result is independent of any extra fuel — the queue empties, so
the while loop terminates. -/
lemma affected_loop_spec (g : DepGraph) (U : List String) (E : Nat)
    (hTar : ∀ (k : String) (node : DependencyNode), lookupNode g k = some node →
        ∀ d ∈ node.imported_by, d ∈ U)
    (hE : ∀ (k : String) (node : DependencyNode), lookupNode g k = some node →
        node.imported_by.length ≤ E) :
    ∀ (fuel : Nat) (queue affected visited : List String),
      (∀ x ∈ queue, x ∈ affected) →
      (∀ x ∈ affected, x ∈ U) →
      (∀ x ∈ visited, x ∈ U) →
      visited.Nodup →
      (U.dedup.length - visited.length) * (E + 1) + queue.length ≤ fuel →
      (∀ x ∈ visited, ∀ node, lookupNode g x = some node →
          ∀ d ∈ node.imported_by, d ∈ affected) →
      (∀ x ∈ affected, x ∈ visited ∨ x ∈ queue) →
      (∀ x ∈ affected, x ∈ affected_loop g fuel queue affected visited)
      ∧ (∀ x ∈ affected_loop g fuel queue affected visited,
          ∀ node, lookupNode g x = some node →
            ∀ d ∈ node.imported_by, d ∈ affected_loop g fuel queue affected visited)
      ∧ (∀ extra, affected_loop g (fuel + extra) queue affected visited
          = affected_loop g fuel queue affected visited) := by
  intro fuel
  induction fuel with
  | zero =>
    intro queue affected visited hq ha hv hnd hm hI2 hI3
    have hqnil : queue = [] := by
      cases queue with
      | nil => rfl
      | cons a l => simp at hm
    subst hqnil
    refine ⟨?_, ?_, ?_⟩
    · intro x hx
      rw [affected_loop_nil]
      exact hx
    · intro x hx node hnode d hd
      rw [affected_loop_nil] at hx
      rw [affected_loop_nil]
      rcases hI3 x hx with hvx | hqx
      · exact hI2 x hvx node hnode d hd
      · exact absurd hqx (List.not_mem_nil x)
    · intro extra
      rw [affected_loop_nil, affected_loop_nil]
  | succ fuel ih =>
    intro queue affected visited hq ha hv hnd hm hI2 hI3
    cases queue with
    | nil =>
      refine ⟨?_, ?_, ?_⟩
      · intro x hx
        rw [affected_loop_nil]
        exact hx
      · intro x hx node hnode d hd
        rw [affected_loop_nil] at hx
        rw [affected_loop_nil]
        rcases hI3 x hx with hvx | hqx
        · exact hI2 x hvx node hnode d hd
        · exact absurd hqx (List.not_mem_nil x)
      · intro extra
        rw [affected_loop_nil, affected_loop_nil]
    | cons current qs =>
      have hcurA : current ∈ affected := hq current (List.mem_cons_self current qs)
      have hcurU : current ∈ U := ha current hcurA
      have hm2 : (U.dedup.length - visited.length) * (E + 1) + qs.length ≤ fuel := by
        simp only [List.length_cons] at hm
        omega
      cases hvc : visited.contains current with
      | true =>
        have hcurV : current ∈ visited := List.elem_iff.mp hvc
        have step : affected_loop g (fuel + 1) (current :: qs) affected visited
            = affected_loop g fuel qs affected visited := by
          simp [affected_loop, hcurV]
        obtain ⟨ih1, ih2, ih3⟩ := ih qs affected visited
          (fun x hx => hq x (List.mem_cons_of_mem current hx)) ha hv hnd hm2 hI2
          (by
            intro x hx
            rcases hI3 x hx with h1 | h1
            · exact Or.inl h1
            · rcases List.mem_cons.mp h1 with rfl | h2
              · exact Or.inl hcurV
              · exact Or.inr h2)
        rw [step]
        refine ⟨ih1, ih2, ?_⟩
        intro extra
        have : fuel + 1 + extra = (fuel + extra) + 1 := by omega
        rw [this]
        have step2 : affected_loop g ((fuel + extra) + 1) (current :: qs) affected visited
            = affected_loop g (fuel + extra) qs affected visited := by
          simp [affected_loop, hcurV]
        rw [step2, ih3 extra]
      | false =>
        have hcurNV : current ∉ visited := by
          intro hmem
          have h5 : visited.contains current = true := List.elem_iff.mpr hmem
          rw [h5] at hvc
          exact Bool.true_eq_false.mp hvc
        have hnd2 : (current :: visited).Nodup := List.nodup_cons.mpr ⟨hcurNV, hnd⟩
        have hv2 : ∀ x ∈ current :: visited, x ∈ U := by
          intro x hx
          rcases List.mem_cons.mp hx with rfl | h2
          · exact hcurU
          · exact hv x h2
        have hlen2 : visited.length + 1 ≤ U.dedup.length := by
          have := nodup_length_le_dedup (current :: visited) U hnd2 hv2
          simpa using this
        cases hlk : lookupNode g current with
        | none =>
          have step : affected_loop g (fuel + 1) (current :: qs) affected visited
              = affected_loop g fuel qs affected (current :: visited) := by
            simp [affected_loop, hcurNV, hlk]
          have hm3 : (U.dedup.length - (current :: visited).length) * (E + 1) + qs.length
              ≤ fuel := by
            have hsub : U.dedup.length - (visited.length + 1) ≤ U.dedup.length - visited.length :=
              Nat.sub_le_sub_left (Nat.le_succ _) _
            have hmul : (U.dedup.length - (visited.length + 1)) * (E + 1)
                ≤ (U.dedup.length - visited.length) * (E + 1) :=
              Nat.mul_le_mul_right _ hsub
            simp only [List.length_cons]
            omega
          obtain ⟨ih1, ih2, ih3⟩ := ih qs affected (current :: visited)
            (fun x hx => hq x (List.mem_cons_of_mem current hx)) ha hv2 hnd2 hm3
            (by
              intro x hx node hnode d hd
              rcases List.mem_cons.mp hx with rfl | h2
              · rw [hlk] at hnode; exact absurd hnode (by simp)
              · exact hI2 x h2 node hnode d hd)
            (by
              intro x hx
              rcases hI3 x hx with h1 | h1
              · exact Or.inl (List.mem_cons_of_mem current h1)
              · rcases List.mem_cons.mp h1 with rfl | h2
                · exact Or.inl (List.mem_cons_self _ _)
                · exact Or.inr h2)
          rw [step]
          refine ⟨ih1, ih2, ?_⟩
          intro extra
          have heq : fuel + 1 + extra = (fuel + extra) + 1 := by omega
          rw [heq]
          have step2 : affected_loop g ((fuel + extra) + 1) (current :: qs) affected visited
              = affected_loop g (fuel + extra) qs affected (current :: visited) := by
            simp [affected_loop, hcurNV, hlk]
          rw [step2, ih3 extra]
        | some node =>
          have hImpU : ∀ d ∈ node.imported_by, d ∈ U := hTar current node hlk
          have hImpE : node.imported_by.length ≤ E := hE current node hlk
          have step : affected_loop g (fuel + 1) (current :: qs) affected visited
              = affected_loop g fuel (qs ++ new_entries affected node.imported_by)
                  (affected ++ new_entries affected node.imported_by)
                  (current :: visited) := by
            simp [affected_loop, hcurNV, hlk]
          have hq2 : ∀ x ∈ qs ++ new_entries affected node.imported_by,
              x ∈ affected ++ new_entries affected node.imported_by := by
            intro x hx
            rcases List.mem_append.mp hx with h1 | h1
            · exact List.mem_append_left _ (hq x (List.mem_cons_of_mem current h1))
            · exact List.mem_append_right _ h1
          have ha2 : ∀ x ∈ affected ++ new_entries affected node.imported_by, x ∈ U := by
            intro x hx
            rcases List.mem_append.mp hx with h1 | h1
            · exact ha x h1
            · exact hImpU x (new_entries_sub node.imported_by affected x h1)
          have hm3 : (U.dedup.length - (current :: visited).length) * (E + 1)
              + (qs ++ new_entries affected node.imported_by).length ≤ fuel := by
            have hnel : (new_entries affected node.imported_by).length ≤ E :=
              le_trans (new_entries_length_le node.imported_by affected) hImpE
            have ha1 : 1 ≤ U.dedup.length - visited.length := by omega
            have hsplit : (U.dedup.length - visited.length - 1) * (E + 1) + (E + 1)
                = (U.dedup.length - visited.length) * (E + 1) := by
              have h4 : U.dedup.length - visited.length - 1 + 1
                  = U.dedup.length - visited.length := by omega
              calc (U.dedup.length - visited.length - 1) * (E + 1) + (E + 1)
                  = ((U.dedup.length - visited.length - 1) + 1) * (E + 1) :=
                    (Nat.succ_mul _ _).symm
                _ = (U.dedup.length - visited.length) * (E + 1) := by rw [h4]
            simp only [List.length_cons, List.length_append]
            have hss : U.dedup.length - (visited.length + 1)
                = U.dedup.length - visited.length - 1 := by omega
            rw [hss]
            omega
          obtain ⟨ih1, ih2, ih3⟩ := ih (qs ++ new_entries affected node.imported_by)
            (affected ++ new_entries affected node.imported_by) (current :: visited)
            hq2 ha2 hv2 hnd2 hm3
            (by
              intro x hx node2 hnode2 d hd
              rcases List.mem_cons.mp hx with rfl | h2
              · rw [hlk] at hnode2
                injection hnode2 with h3
                subst h3
                rcases new_entries_cover node.imported_by affected d hd with h4 | h4
                · exact List.mem_append_left _ h4
                · exact List.mem_append_right _ h4
              · exact List.mem_append_left _ (hI2 x h2 node2 hnode2 d hd))
            (by
              intro x hx
              rcases List.mem_append.mp hx with h1 | h1
              · rcases hI3 x h1 with h2 | h2
                · exact Or.inl (List.mem_cons_of_mem current h2)
                · rcases List.mem_cons.mp h2 with rfl | h3
                  · exact Or.inl (List.mem_cons_self _ _)
                  · exact Or.inr (List.mem_append_left _ h3)
              · exact Or.inr (List.mem_append_right _ h1))
          rw [step]
          refine ⟨?_, ih2, ?_⟩
          · intro x hx
            exact ih1 x (List.mem_append_left _ hx)
          · intro extra
            have heq : fuel + 1 + extra = (fuel + extra) + 1 := by omega
            rw [heq]
            have step2 : affected_loop g ((fuel + extra) + 1) (current :: qs) affected visited
                = affected_loop g (fuel + extra)
                    (qs ++ new_entries affected node.imported_by)
                    (affected ++ new_entries affected node.imported_by)
                    (current :: visited) := by
              simp [affected_loop, hcurNV, hlk]
            rw [step2, ih3 extra]

/-- Instantiation of the loop invariant at the actual entry state of
`get_affected_modules`. -/
lemma get_affected_spec (g : DepGraph) (changed : List String) :
    (∀ x ∈ seed_affected g changed [], x ∈ get_affected_modules g changed)
  ∧ (∀ x ∈ get_affected_modules g changed, ∀ node, lookupNode g x = some node →
      ∀ d ∈ node.imported_by, d ∈ get_affected_modules g changed)
  ∧ (∀ extra, affected_loop g (affected_fuel g changed + extra)
        (seed_affected g changed []) (seed_affected g changed []) []
      = get_affected_modules g changed) := by
  have h := affected_loop_spec g (seed_affected g changed [] ++ edge_targets g)
    (total_edges g)
    (fun k node hk d hd =>
      List.mem_append_right _ ((lookup_imported_by_sub g k node hk).1 d hd))
    (fun k node hk => (lookup_imported_by_sub g k node hk).2)
    (affected_fuel g changed) (seed_affected g changed []) (seed_affected g changed []) []
    (fun x hx => hx)
    (fun x hx => List.mem_append_left _ hx)
    (fun x hx => absurd hx (List.not_mem_nil x))
    List.nodup_nil
    (by simp [affected_fuel])
    (fun x hx => absurd hx (List.not_mem_nil x))
    (fun x hx => Or.inr hx)
  exact ⟨h.1, h.2.1, h.2.2⟩

/-! ## Claim C3 -/

/-- Claim C3: for every dependency graph and changed-file list,
`get_affected_modules` contains every changed file that is a graph node,
and is closed under `imported_by`: no member that is a graph node has an
`imported_by` entry outside the result. -/
theorem C3_superset_and_closed :
    ∀ (g : DepGraph) (changed : List String),
      (∀ f ∈ changed, (lookupNode g f).isSome = true →
          f ∈ get_affected_modules g changed)
    ∧ (∀ x ∈ get_affected_modules g changed, ∀ node, lookupNode g x = some node →
        ∀ d ∈ node.imported_by, d ∈ get_affected_modules g changed) := by
  intro g changed
  refine ⟨?_, (get_affected_spec g changed).2.1⟩
  intro f hf hsome
  exact (get_affected_spec g changed).1 f (mem_seed_affected g changed [] f hf hsome)

/-- Witness for C3 on the three-node cycle: the changed node A is in the
result, and A's `imported_by` entry C is too. -/
theorem C3_witness :
    "A" ∈ get_affected_modules cycle_graph ["A"]
  ∧ ∀ d ∈ (["C"] : List String), d ∈ get_affected_modules cycle_graph ["A"] :=
  ⟨(C3_superset_and_closed cycle_graph ["A"]).1 "A" (by decide) (by decide),
   fun d hd => (C3_superset_and_closed cycle_graph ["A"]).2 "A" (by decide)
     ⟨"A", ["B"], ["C"], [], false⟩ (by decide) d hd⟩

/-! ## Claim C4 -/

/-- Claim C4: the traversal of `get_affected_modules` terminates on every
graph, cyclic `imported_by` edges included — the fuelled rendering of its
while loop has already converged at `affected_fuel`, a bound computed
from the graph's size, so any extra fuel leaves the result unchanged —
and on the three-node import cycle (A imports B, B imports C, C imports
A), changing any single node yields exactly the set of all three
nodes. -/
theorem C4_terminates_and_cycle :
    (∀ (g : DepGraph) (changed : List String) (extra : Nat),
      affected_loop g (affected_fuel g changed + extra)
          (seed_affected g changed []) (seed_affected g changed []) []
        = get_affected_modules g changed)
  ∧ ((get_affected_modules cycle_graph ["A"]).contains "A" = true
      ∧ (get_affected_modules cycle_graph ["A"]).contains "B" = true
      ∧ (get_affected_modules cycle_graph ["A"]).contains "C" = true
      ∧ (get_affected_modules cycle_graph ["A"]).length = 3)
  ∧ ((get_affected_modules cycle_graph ["B"]).contains "A" = true
      ∧ (get_affected_modules cycle_graph ["B"]).contains "B" = true
      ∧ (get_affected_modules cycle_graph ["B"]).contains "C" = true
      ∧ (get_affected_modules cycle_graph ["B"]).length = 3)
  ∧ ((get_affected_modules cycle_graph ["C"]).contains "A" = true
      ∧ (get_affected_modules cycle_graph ["C"]).contains "B" = true
      ∧ (get_affected_modules cycle_graph ["C"]).contains "C" = true
      ∧ (get_affected_modules cycle_graph ["C"]).length = 3) := by
  refine ⟨?_, by decide, by decide, by decide⟩
  intro g changed extra
  exact (get_affected_spec g changed).2.2 extra
